import Mathlib

/-!
Verification of the palette-derivation engine of proposalsnap
(`extract_colors_from_logo` and `default_colors` in app.py), shallowly
embedded over exact rational arithmetic. Python's `colorsys.rgb_to_hsv`
and `colorsys.hsv_to_rgb` are translated statement by statement; `int()`
truncation and float `% 1.0` are modelled by `pyInt` and `pyMod1`.
-/

namespace ProposalSnap

/-- A pixel as produced by `Image.open(...).convert("RGB")`: an (r, g, b)
triple of 8-bit channel values. Channels are ℕ with validity `≤ 255`. -/
structure Pixel where
  r : ℕ
  g : ℕ
  b : ℕ
deriving DecidableEq, Repr

/-- Channel range guaranteed by the 8-bit RGB decode. -/
def Pixel.valid (p : Pixel) : Prop := p.r ≤ 255 ∧ p.g ≤ 255 ∧ p.b ≤ 255

instance (p : Pixel) : Decidable p.valid := by unfold Pixel.valid; infer_instance

/-- Python `int()` on a rational: truncation toward zero. -/
def pyInt (q : ℚ) : ℤ := if 0 ≤ q then ⌊q⌋ else ⌈q⌉

/-- Python float `x % 1.0`: the fractional part (result in [0,1)). -/
def pyMod1 (q : ℚ) : ℚ := q - ⌊q⌋

/-- `colorsys.rgb_to_hsv` on normalized channels (exact rationals). -/
def rgb_to_hsv (r g b : ℚ) : ℚ × ℚ × ℚ :=
  let maxc := max r (max g b)
  let minc := min r (min g b)
  let v := maxc
  if minc = maxc then (0, 0, v)
  else
    let rangec := maxc - minc
    let s := rangec / maxc
    let rc := (maxc - r) / rangec
    let gc := (maxc - g) / rangec
    let bc := (maxc - b) / rangec
    let h := if r = maxc then bc - gc
             else if g = maxc then 2 + rc - bc
             else 4 + gc - rc
    (pyMod1 (h / 6), s, v)

/-- `colorsys.hsv_to_rgb` (exact rationals). The trailing `(0,0,0)` case is
unreachable: `i % 6` always lands in 0..5. -/
def hsv_to_rgb (h s v : ℚ) : ℚ × ℚ × ℚ :=
  if s = 0 then (v, v, v)
  else
    let i0 := pyInt (h * 6)
    let f := h * 6 - i0
    let p := v * (1 - s)
    let q := v * (1 - s * f)
    let t := v * (1 - s * (1 - f))
    let i := i0 % 6
    if i = 0 then (v, t, p)
    else if i = 1 then (q, v, p)
    else if i = 2 then (p, v, t)
    else if i = 3 then (p, q, v)
    else if i = 4 then (t, p, v)
    else if i = 5 then (v, p, q)
    else (0, 0, 0)

/-- The near-white / near-black test of the list comprehension in
`extract_colors_from_logo`: keep a pixel unless all channels > 240 or all
channels < 15. -/
def keepPixel (p : Pixel) : Bool :=
  !(decide (240 < p.r) && decide (240 < p.g) && decide (240 < p.b)) &&
  !(decide (p.r < 15) && decide (p.g < 15) && decide (p.b < 15))

/-- `filtered = [(r,g,b) for ... if not near-white and not near-black]`. -/
def filterPixels (pixels : List Pixel) : List Pixel := pixels.filter keepPixel

/-- `if not filtered: filtered = pixels` — the empty-filter fallback. -/
def sampleSet (pixels : List Pixel) : List Pixel :=
  if filterPixels pixels = [] then pixels else filterPixels pixels

/-- `avg_c = int(sum(p[c] for p in filtered) / len(filtered))`: for a
non-empty list the Python truncation of the non-negative mean is exactly
natural-number division. -/
def avgPixel (l : List Pixel) : Pixel :=
  ⟨(l.map Pixel.r).sum / l.length,
   (l.map Pixel.g).sum / l.length,
   (l.map Pixel.b).sum / l.length⟩

/-- `colorsys.rgb_to_hsv(r/255, g/255, b/255)` of a pixel. -/
def pixelHSV (p : Pixel) : ℚ × ℚ × ℚ :=
  rgb_to_hsv ((p.r : ℚ) / 255) ((p.g : ℚ) / 255) ((p.b : ℚ) / 255)

/-- Saturation of a pixel, as the vivid-pixel loop computes it. -/
def sat (p : Pixel) : ℚ := (pixelHSV p).2.1

/-- Value (brightness) of a pixel, as the vivid-pixel loop computes it. -/
def val (p : Pixel) : ℚ := (pixelHSV p).2.2

/-- One iteration of the vivid-pixel loop:
`if s > best_sat and v > 0.2: best_sat, vivid = s, (r,g,b)`. -/
def vividStep (st : ℚ × Pixel) (p : Pixel) : ℚ × Pixel :=
  if st.1 < sat p ∧ (0.2 : ℚ) < val p then (sat p, p) else st

/-- The whole loop: `best_sat = 0; vivid = (avg_r, avg_g, avg_b); for ...`. -/
def vividOf (filtered : List Pixel) (avg : Pixel) : Pixel :=
  (filtered.foldl vividStep (0, avg)).2

/-- Python `f"{n:02x}"` for a natural number: lowercase hex digits,
left-padded with `0` to width 2. -/
def format02x (n : ℕ) : String :=
  let ds := Nat.toDigits 16 n
  ⟨List.replicate (2 - ds.length) '0' ++ ds⟩

/-- `f"{r:02x}{g:02x}{b:02x}"` of a pixel. -/
def hex6 (p : Pixel) : String := format02x p.r ++ format02x p.g ++ format02x p.b

/-- `f"{int(x*255):02x}"` for a derived channel (non-negative on every
reachable call, so `Int.toNat` is exact). -/
def hexByte (x : ℚ) : String := format02x (pyInt (x * 255)).toNat

/-- Hex string of a derived `(r, g, b)` triple of normalized channels. -/
def hexOfTriple (c : ℚ × ℚ × ℚ) : String := hexByte c.1 ++ hexByte c.2.1 ++ hexByte c.2.2

/-- The 8-key palette record returned by the extractor. -/
structure Palette where
  primary : String
  secondary : String
  accent : String
  dark : String
  light : String
  textDark : String
  textLight : String
  textMuted : String
deriving DecidableEq, Repr

/-- `default_colors()` from app.py. -/
def default_colors : Palette :=
  { primary := "1E2761", secondary := "CADCFC", accent := "4A90D9",
    dark := "0F1629", light := "F8F9FA", textDark := "1A1A2E",
    textLight := "FFFFFF", textMuted := "6B7280" }

/-- The success path of `extract_colors_from_logo`, from the pixel list of
the decoded, resized image to the returned dict. -/
def extractPalette (pixels : List Pixel) : Palette :=
  let filtered := sampleSet pixels
  let avg := avgPixel filtered
  let vivid := vividOf filtered avg
  let primary_hex := hex6 vivid
  let hsv := pixelHSV vivid
  let h := hsv.1
  let s := hsv.2.1
  let v := hsv.2.2
  let secondary := hsv_to_rgb h (max 0.1 (s * 0.3)) (min 1.0 (v * 1.4 + 0.3))
  let accent := hsv_to_rgb (pyMod1 (h + 0.08)) (min 1.0 (s * 1.2 + 0.1))
                  (min 1.0 (v * 1.1 + 0.1))
  let dark := hsv_to_rgb h (min 0.6 (s * 0.8)) 0.12
  { primary := primary_hex,
    secondary := hexOfTriple secondary,
    accent := hexOfTriple accent,
    dark := hexOfTriple dark,
    light := "F8F9FA", textDark := "1A1A2E",
    textLight := "FFFFFF", textMuted := "6B7280" }

/-- `extract_colors_from_logo(logo_path)`. The input is the result of the
fallible prefix (open, decode, resize, getdata): `none` stands for any
raised exception there (missing file, corrupt image), caught by the
`except` clause; an empty pixel list makes `len(filtered)` zero, so the
divisions raise `ZeroDivisionError`, also caught. Both paths return
`default_colors()`. -/
def extract_colors_from_logo (img : Option (List Pixel)) : Palette :=
  match img with
  | none => default_colors
  | some pixels => if pixels = [] then default_colors else extractPalette pixels

/-! Spec-side definitions, written from the specification's wording, to be
compared with the definitions above, which are translated from the code. -/

/-- The average-color rule as the spec words it (§4.1 step 5): component-wise
mean with each channel ROUNDED TO THE NEAREST integer. -/
def specAvgClaim (l : List Pixel) : Pixel :=
  ⟨(round (((l.map Pixel.r).sum : ℚ) / (l.length : ℚ))).toNat,
   (round (((l.map Pixel.g).sum : ℚ) / (l.length : ℚ))).toNat,
   (round (((l.map Pixel.b).sum : ℚ) / (l.length : ℚ))).toNat⟩

/-- The vivid-color rule as the spec words it (§4.1 step 6): among the pixels
whose value exceeds 0.2, the first pixel of maximal saturation; the average
color only when no pixel clears the value floor. -/
def specVividClaim (filtered : List Pixel) (avg : Pixel) : Pixel :=
  let qualifying := filtered.filter (fun p => decide ((0.2 : ℚ) < val p))
  let maxSat := qualifying.foldl (fun m p => max m (sat p)) 0
  if qualifying = [] then avg
  else (qualifying.find? (fun p => decide (sat p = maxSat))).getD avg

/-- The secondary-color derivation rule as the spec words it (§4.1 step 9). -/
def specSecondaryHSV (h s v : ℚ) : ℚ × ℚ × ℚ :=
  (h, max 0.1 (s * 0.3), min 1.0 (v * 1.4 + 0.3))

/-- The accent-color derivation rule as the spec words it (§4.1 step 10). -/
def specAccentHSV (h s v : ℚ) : ℚ × ℚ × ℚ :=
  (pyMod1 (h + 0.08), min 1.0 (s * 1.2 + 0.1), min 1.0 (v * 1.1 + 0.1))

/-- Numeric value of one hex digit character (0 on other characters). -/
def hexDigitVal (c : Char) : ℕ :=
  if '0' ≤ c ∧ c ≤ '9' then c.toNat - '0'.toNat
  else if 'a' ≤ c ∧ c ≤ 'f' then c.toNat - 'a'.toNat + 10
  else if 'A' ≤ c ∧ c ≤ 'F' then c.toNat - 'A'.toNat + 10
  else 0

/-- Decode a 6-hex-digit color string back to an RGB pixel. -/
def decodeHex6 (s : String) : Pixel :=
  match s.data with
  | [c1, c2, c3, c4, c5, c6] =>
      ⟨16 * hexDigitVal c1 + hexDigitVal c2,
       16 * hexDigitVal c3 + hexDigitVal c4,
       16 * hexDigitVal c5 + hexDigitVal c6⟩
  | _ => ⟨0, 0, 0⟩

/-- One hex digit character test: `[0-9a-fA-F]`. -/
def isHexDigit (c : Char) : Bool :=
  (decide ('0' ≤ c) && decide (c ≤ '9')) ||
  (decide ('a' ≤ c) && decide (c ≤ 'f')) ||
  (decide ('A' ≤ c) && decide (c ≤ 'F'))

/-- The regular expression of the spec, `^[0-9a-fA-F]{6}$`, as a predicate. -/
def isHex6 (s : String) : Bool := decide (s.length = 6) && s.data.all isHexDigit

/-! Theorems. -/

/-- C1: `extract_colors_from_logo` is total; every caught internal failure —
`none` stands for an exception in open/decode/resize (in particular a
nonexistent path), and an empty pixel list reaches the division by
`len(filtered) = 0` — returns exactly the DefaultPalette constant. -/
theorem extract_fallback_default :
    extract_colors_from_logo none = default_colors ∧
    extract_colors_from_logo (some []) = default_colors ∧
    default_colors = { primary := "1E2761", secondary := "CADCFC",
                       accent := "4A90D9", dark := "0F1629", light := "F8F9FA",
                       textDark := "1A1A2E", textLight := "FFFFFF",
                       textMuted := "6B7280" } :=
  ⟨rfl, rfl, rfl⟩

/-- C2: on every path (success or fallback) the returned palette carries all
8 fields, and `light`, `textDark`, `textLight`, `textMuted` are the fixed
constants `"F8F9FA"`, `"1A1A2E"`, `"FFFFFF"`, `"6B7280"`. -/
theorem palette_fixed_fields (img : Option (List Pixel)) :
    (extract_colors_from_logo img).light = "F8F9FA" ∧
    (extract_colors_from_logo img).textDark = "1A1A2E" ∧
    (extract_colors_from_logo img).textLight = "FFFFFF" ∧
    (extract_colors_from_logo img).textMuted = "6B7280" := by
  match img with
  | none => exact ⟨rfl, rfl, rfl, rfl⟩
  | some pixels =>
      by_cases h : pixels = [] <;>
        simp [extract_colors_from_logo, extractPalette, default_colors, h]

/-- C3: for a non-empty SampleSet, the set actually used for the averages
(the filtered set, or the unfiltered set when filtering empties it) is never
empty, so the divisor `len(filtered)` is positive and the division-by-zero
branch is unreachable. -/
theorem sampleSet_ne_nil (pixels : List Pixel) (h : pixels ≠ []) :
    sampleSet pixels ≠ [] ∧ 0 < (sampleSet pixels).length := by
  unfold sampleSet
  split
  · exact ⟨h, List.length_pos.mpr h⟩
  · next hne => exact ⟨hne, List.length_pos.mpr hne⟩

/-- Witness for C3 at a concrete one-pixel sample set. -/
theorem sampleSet_ne_nil_witness :
    ([(⟨10, 20, 30⟩ : Pixel)] ≠ []) ∧
    (sampleSet [⟨10, 20, 30⟩] ≠ [] ∧ 0 < (sampleSet [⟨10, 20, 30⟩]).length) :=
  ⟨by decide, sampleSet_ne_nil _ (by decide)⟩

/-- C8: extraction is deterministic — it is a pure function of the decoded
input, so equal inputs (including equal failing inputs) give equal results. -/
theorem extract_deterministic (i j : Option (List Pixel)) (h : i = j) :
    extract_colors_from_logo i = extract_colors_from_logo j := by rw [h]

/-- Witness for C8 at a concrete input. -/
theorem extract_deterministic_witness :
    (some [(⟨200, 30, 30⟩ : Pixel)] = some [(⟨200, 30, 30⟩ : Pixel)]) ∧
    extract_colors_from_logo (some [⟨200, 30, 30⟩]) =
      extract_colors_from_logo (some [⟨200, 30, 30⟩]) :=
  ⟨rfl, extract_deterministic _ _ rfl⟩

/-- C4 counterexample: on the two-gray-pixel image `[(100,100,100),
(200,200,200)]` both pixels clear the value floor 0.2, the maximal
saturation among them is 0 (attained first by `(100,100,100)`), yet the
loop keeps the average `(150,150,150)` because it starts at `best_sat = 0`
and demands strictly greater saturation — so the vivid color is not "the
pixel of highest saturation among pixels whose value exceeds 0.2". -/
theorem vivid_spec_counterexample :
    vividOf (sampleSet [⟨100, 100, 100⟩, ⟨200, 200, 200⟩])
        (avgPixel (sampleSet [⟨100, 100, 100⟩, ⟨200, 200, 200⟩])) =
      ⟨150, 150, 150⟩ ∧
    specVividClaim (sampleSet [⟨100, 100, 100⟩, ⟨200, 200, 200⟩])
        (avgPixel (sampleSet [⟨100, 100, 100⟩, ⟨200, 200, 200⟩])) =
      ⟨100, 100, 100⟩ ∧
    vividOf (sampleSet [⟨100, 100, 100⟩, ⟨200, 200, 200⟩])
        (avgPixel (sampleSet [⟨100, 100, 100⟩, ⟨200, 200, 200⟩])) ≠
      specVividClaim (sampleSet [⟨100, 100, 100⟩, ⟨200, 200, 200⟩])
        (avgPixel (sampleSet [⟨100, 100, 100⟩, ⟨200, 200, 200⟩])) := by
  with_unfolding_all decide

/-- C5 counterexample: on `[(100,100,100), (101,101,101), (101,101,101)]`
the channel mean is 302/3 ≈ 100.67; rounding to the nearest integer gives
101, but `int(sum/len)` truncates to 100. -/
theorem avg_round_counterexample :
    avgPixel (sampleSet [⟨100, 100, 100⟩, ⟨101, 101, 101⟩, ⟨101, 101, 101⟩]) =
      ⟨100, 100, 100⟩ ∧
    specAvgClaim (sampleSet [⟨100, 100, 100⟩, ⟨101, 101, 101⟩, ⟨101, 101, 101⟩]) =
      ⟨101, 101, 101⟩ ∧
    avgPixel (sampleSet [⟨100, 100, 100⟩, ⟨101, 101, 101⟩, ⟨101, 101, 101⟩]) ≠
      specAvgClaim (sampleSet [⟨100, 100, 100⟩, ⟨101, 101, 101⟩, ⟨101, 101, 101⟩]) := by
  with_unfolding_all decide

/-- C7 counterexample: for the single-pixel image `(200,30,30)` the emitted
dark hex is `"1e0c0c"`; decoded back, its value is `30/255 = 2/17`, which is
not exactly 0.12 — `int(0.12*255) = 30` loses the exact value 0.12 = 30.6/255
to quantization. -/
theorem dark_roundtrip_counterexample :
    (extract_colors_from_logo (some [⟨200, 30, 30⟩])).dark = "1e0c0c" ∧
    (pixelHSV (decodeHex6 ((extract_colors_from_logo (some [⟨200, 30, 30⟩])).dark))).2.2 =
      2 / 17 ∧
    (pixelHSV (decodeHex6 ((extract_colors_from_logo (some [⟨200, 30, 30⟩])).dark))).2.2 ≠
      0.12 := by
  with_unfolding_all decide

/-- `pyMod1` is the fractional part. -/
lemma pyMod1_eq_fract (q : ℚ) : pyMod1 q = Int.fract q := rfl

/-- `pyMod1` lands in `[0, 1)`. -/
lemma pyMod1_bounds (q : ℚ) : 0 ≤ pyMod1 q ∧ pyMod1 q < 1 := by
  rw [pyMod1_eq_fract]
  exact ⟨Int.fract_nonneg q, Int.fract_lt_one q⟩

/-- Python truncation agrees with the floor on non-negative arguments. -/
lemma pyInt_of_nonneg (q : ℚ) (h : 0 ≤ q) : pyInt q = ⌊q⌋ := if_pos h

/-- Range of the HSV coordinates produced by `rgb_to_hsv` on non-negative
channels: hue in `[0,1)`, saturation in `[0,1]`, value = the channel max. -/
lemma rgb_to_hsv_bounds (r g b : ℚ) (hr : 0 ≤ r) (hg : 0 ≤ g) (hb : 0 ≤ b) :
    0 ≤ (rgb_to_hsv r g b).1 ∧ (rgb_to_hsv r g b).1 < 1 ∧
    0 ≤ (rgb_to_hsv r g b).2.1 ∧ (rgb_to_hsv r g b).2.1 ≤ 1 ∧
    (rgb_to_hsv r g b).2.2 = max r (max g b) := by
  have hminmax : min r (min g b) ≤ max r (max g b) :=
    le_trans (min_le_left _ _) (le_max_left _ _)
  have hmin0 : 0 ≤ min r (min g b) := le_min hr (le_min hg hb)
  simp only [rgb_to_hsv]
  split_ifs with h1 h2 h3
  · exact ⟨le_refl 0, by norm_num, le_refl 0, by norm_num, rfl⟩
  all_goals
    have hlt : min r (min g b) < max r (max g b) := lt_of_le_of_ne hminmax h1
  all_goals
    have hmaxpos : 0 < max r (max g b) := lt_of_le_of_lt hmin0 hlt
  all_goals
    refine ⟨(pyMod1_bounds _).1, (pyMod1_bounds _).2, ?_, ?_, rfl⟩
  all_goals
    first
      | exact div_nonneg (sub_nonneg.mpr hminmax) (le_of_lt hmaxpos)
      | (rw [div_le_one hmaxpos]; linarith)

/-- Saturation of any pixel is non-negative. -/
lemma sat_nonneg (p : Pixel) : 0 ≤ sat p := by
  have h := rgb_to_hsv_bounds ((p.r : ℚ) / 255) ((p.g : ℚ) / 255) ((p.b : ℚ) / 255)
    (by positivity) (by positivity) (by positivity)
  exact h.2.2.1

/-- Saturation of any pixel is at most 1. -/
lemma sat_le_one (p : Pixel) : sat p ≤ 1 := by
  have h := rgb_to_hsv_bounds ((p.r : ℚ) / 255) ((p.g : ℚ) / 255) ((p.b : ℚ) / 255)
    (by positivity) (by positivity) (by positivity)
  exact h.2.2.2.1

/-- Hue of any pixel lies in `[0, 1)`. -/
lemma hue_bounds (p : Pixel) : 0 ≤ (pixelHSV p).1 ∧ (pixelHSV p).1 < 1 := by
  have h := rgb_to_hsv_bounds ((p.r : ℚ) / 255) ((p.g : ℚ) / 255) ((p.b : ℚ) / 255)
    (by positivity) (by positivity) (by positivity)
  exact ⟨h.1, h.2.1⟩

/-- Value of any pixel is the normalized channel maximum. -/
lemma val_eq_max (p : Pixel) :
    val p = max ((p.r : ℚ) / 255) (max ((p.g : ℚ) / 255) ((p.b : ℚ) / 255)) := by
  have h := rgb_to_hsv_bounds ((p.r : ℚ) / 255) ((p.g : ℚ) / 255) ((p.b : ℚ) / 255)
    (by positivity) (by positivity) (by positivity)
  exact h.2.2.2.2

/-- A pixel with equal channels has saturation exactly 0. -/
lemma sat_of_gray (p : Pixel) (h1 : p.r = p.g) (h2 : p.g = p.b) : sat p = 0 := by
  obtain ⟨r, g, b⟩ := p
  simp only at h1 h2
  subst h1; subst h2
  simp [sat, pixelHSV, rgb_to_hsv]

/-- If every pixel of the list has saturation 0, the vivid loop never fires
and keeps its initial state. -/
lemma vividFold_const (l : List Pixel) (c : Pixel) (h : ∀ p ∈ l, sat p = 0) :
    l.foldl vividStep (0, c) = (0, c) := by
  induction l with
  | nil => rfl
  | cons x xs ih =>
      have hx : sat x = 0 := h x (List.mem_cons_self x xs)
      have hstep : vividStep (0, x) x = (0, x) := by
        simp [vividStep, hx]
      simp only [List.foldl_cons, vividStep, hx]
      rw [if_neg (by simp)]
      exact ih fun p hp => h p (List.mem_cons_of_mem x hp)

/-- Every element of the used sample set comes from the original pixel list. -/
lemma sampleSet_subset (pixels : List Pixel) (p : Pixel) (hp : p ∈ sampleSet pixels) :
    p ∈ pixels := by
  unfold sampleSet at hp
  split at hp
  · exact hp
  · exact List.mem_of_mem_filter hp

/-- C10: a saturation-0 pixel is never selected as vivid (the loop starts at
`best_sat = 0` and requires strict improvement), so on a pure grayscale image
the vivid color stays the average and `primary` is the hex of the truncated
channel averages of the (possibly unfiltered) sample set. -/
theorem grayscale_primary_is_avg (pixels : List Pixel) (hne : pixels ≠ [])
    (hgray : ∀ p ∈ pixels, p.r = p.g ∧ p.g = p.b) :
    vividOf (sampleSet pixels) (avgPixel (sampleSet pixels)) =
      avgPixel (sampleSet pixels) ∧
    (extract_colors_from_logo (some pixels)).primary =
      hex6 (avgPixel (sampleSet pixels)) := by
  have hsat : ∀ p ∈ sampleSet pixels, sat p = 0 := by
    intro p hp
    have hm := sampleSet_subset pixels p hp
    exact sat_of_gray p (hgray p hm).1 (hgray p hm).2
  have hvivid : vividOf (sampleSet pixels) (avgPixel (sampleSet pixels)) =
      avgPixel (sampleSet pixels) := by
    unfold vividOf
    rw [vividFold_const _ _ hsat]
  refine ⟨hvivid, ?_⟩
  have hext : extract_colors_from_logo (some pixels) = extractPalette pixels := by
    simp [extract_colors_from_logo, hne]
  rw [hext]
  show hex6 (vividOf (sampleSet pixels) (avgPixel (sampleSet pixels))) =
    hex6 (avgPixel (sampleSet pixels))
  rw [hvivid]

/-- Witness for C10 at a concrete grayscale image. -/
theorem grayscale_primary_is_avg_witness :
    (([⟨100, 100, 100⟩, ⟨200, 200, 200⟩] : List Pixel) ≠ []) ∧
    (∀ p ∈ ([⟨100, 100, 100⟩, ⟨200, 200, 200⟩] : List Pixel),
      p.r = p.g ∧ p.g = p.b) ∧
    (vividOf (sampleSet [⟨100, 100, 100⟩, ⟨200, 200, 200⟩])
        (avgPixel (sampleSet [⟨100, 100, 100⟩, ⟨200, 200, 200⟩])) =
      avgPixel (sampleSet [⟨100, 100, 100⟩, ⟨200, 200, 200⟩]) ∧
    (extract_colors_from_logo (some [⟨100, 100, 100⟩, ⟨200, 200, 200⟩])).primary =
      hex6 (avgPixel (sampleSet [⟨100, 100, 100⟩, ⟨200, 200, 200⟩]))) :=
  ⟨by decide, by decide, grayscale_primary_is_avg _ (by decide) (by decide)⟩

/-- Invariant of the vivid-pixel fold: the tracked saturation never
decreases and bounds the saturation of every qualifying pixel processed,
and the tracked pixel is either the untouched initial candidate or the
first qualifying pixel that attains the final saturation. -/
lemma vividFold_invariant (l : List Pixel) (b : ℚ) (c : Pixel) :
    b ≤ (l.foldl vividStep (b, c)).1 ∧
    (∀ p ∈ l, (0.2 : ℚ) < val p → sat p ≤ (l.foldl vividStep (b, c)).1) ∧
    (((l.foldl vividStep (b, c)).1 = b ∧ (l.foldl vividStep (b, c)).2 = c) ∨
      ((0.2 : ℚ) < val (l.foldl vividStep (b, c)).2 ∧
       sat (l.foldl vividStep (b, c)).2 = (l.foldl vividStep (b, c)).1 ∧
       b < (l.foldl vividStep (b, c)).1 ∧
       ∃ l1 l2, l = l1 ++ (l.foldl vividStep (b, c)).2 :: l2 ∧
         ∀ p ∈ l1, (0.2 : ℚ) < val p →
           sat p < (l.foldl vividStep (b, c)).1)) := by
  induction l generalizing b c with
  | nil => simp
  | cons x xs ih =>
      simp only [List.foldl_cons]
      by_cases hx : b < sat x ∧ (0.2 : ℚ) < val x
      · have hstep : vividStep (b, c) x = (sat x, x) := if_pos hx
        rw [hstep]
        obtain ⟨ih1, ih2, ih3⟩ := ih (sat x) x
        refine ⟨le_trans (le_of_lt hx.1) ih1, ?_, ?_⟩
        · intro p hp hval
          rcases List.mem_cons.mp hp with rfl | hmem
          · exact ih1
          · exact ih2 p hmem hval
        · rcases ih3 with ⟨hfst, hsnd⟩ | ⟨hv, hs, hlt, l1, l2, heq, hl1⟩
          · right
            rw [hfst, hsnd]
            exact ⟨hx.2, rfl, hx.1, [], xs, rfl, by intro p hp; cases hp⟩
          · right
            refine ⟨hv, hs, lt_trans hx.1 hlt, x :: l1, l2,
              by rw [List.cons_append, ← heq], ?_⟩
            intro p hp hval
            rcases List.mem_cons.mp hp with rfl | hmem
            · exact hlt
            · exact hl1 p hmem hval
      · have hstep : vividStep (b, c) x = (b, c) := if_neg hx
        rw [hstep]
        obtain ⟨ih1, ih2, ih3⟩ := ih b c
        refine ⟨ih1, ?_, ?_⟩
        · intro p hp hval
          rcases List.mem_cons.mp hp with rfl | hmem
          · have hnb : ¬ b < sat p := fun hlt => hx ⟨hlt, hval⟩
            exact le_trans (not_lt.mp hnb) ih1
          · exact ih2 p hmem hval
        · rcases ih3 with ⟨hfst, hsnd⟩ | ⟨hv, hs, hlt, l1, l2, heq, hl1⟩
          · exact Or.inl ⟨hfst, hsnd⟩
          · right
            refine ⟨hv, hs, hlt, x :: l1, l2,
              by rw [List.cons_append, ← heq], ?_⟩
            intro p hp hval
            rcases List.mem_cons.mp hp with rfl | hmem
            · have hnb : ¬ b < sat p := fun h2 => hx ⟨h2, hval⟩
              exact lt_of_le_of_lt (not_lt.mp hnb) hlt
            · exact hl1 p hmem hval

/-- C4 amended: the vivid color is the FIRST pixel attaining the maximal
saturation among pixels whose value exceeds 0.2, PROVIDED that maximal
saturation is strictly positive (the loop starts at `best_sat = 0` and
requires strict improvement); when every pixel clearing the value floor has
saturation 0 — in particular when none clears it — the vivid color is the
average color. First pixel encountered wins on exact saturation ties. -/
theorem vivid_first_argmax (filtered : List Pixel) (avg : Pixel) :
    (vividOf filtered avg = avg ∧
      ∀ p ∈ filtered, (0.2 : ℚ) < val p → sat p = 0) ∨
    ((0.2 : ℚ) < val (vividOf filtered avg) ∧
      0 < sat (vividOf filtered avg) ∧
      (∀ p ∈ filtered, (0.2 : ℚ) < val p →
        sat p ≤ sat (vividOf filtered avg)) ∧
      ∃ l1 l2, filtered = l1 ++ vividOf filtered avg :: l2 ∧
        ∀ p ∈ l1, (0.2 : ℚ) < val p →
          sat p < sat (vividOf filtered avg)) := by
  obtain ⟨h1, h2, h3⟩ := vividFold_invariant filtered 0 avg
  rcases h3 with ⟨hfst, hsnd⟩ | ⟨hv, hs, hlt, l1, l2, heq, hl1⟩
  · left
    refine ⟨hsnd, fun p hp hval => le_antisymm ?_ (sat_nonneg p)⟩
    have := h2 p hp hval
    rw [hfst] at this
    exact this
  · right
    refine ⟨hv, ?_, ?_, l1, l2, heq, ?_⟩
    · rw [show sat (vividOf filtered avg) =
        (filtered.foldl vividStep (0, avg)).1 from hs]
      exact hlt
    · intro p hp hval
      rw [show sat (vividOf filtered avg) =
        (filtered.foldl vividStep (0, avg)).1 from hs]
      exact h2 p hp hval
    · intro p hp hval
      rw [show sat (vividOf filtered avg) =
        (filtered.foldl vividStep (0, avg)).1 from hs]
      exact hl1 p hp hval

/-- The average pixel of a list of valid pixels is valid (also for the
empty list, where natural division yields 0). -/
lemma avgPixel_valid (l : List Pixel) (hv : ∀ p ∈ l, p.valid) :
    (avgPixel l).valid := by
  refine ⟨?_, ?_, ?_⟩
  · apply Nat.div_le_of_le_mul
    have := List.sum_le_card_nsmul (l.map Pixel.r) 255
      (by intro x hx
          obtain ⟨p, hp, rfl⟩ := List.mem_map.mp hx
          exact (hv p hp).1)
    simpa [smul_eq_mul] using this
  · apply Nat.div_le_of_le_mul
    have := List.sum_le_card_nsmul (l.map Pixel.g) 255
      (by intro x hx
          obtain ⟨p, hp, rfl⟩ := List.mem_map.mp hx
          exact (hv p hp).2.1)
    simpa [smul_eq_mul] using this
  · apply Nat.div_le_of_le_mul
    have := List.sum_le_card_nsmul (l.map Pixel.b) 255
      (by intro x hx
          obtain ⟨p, hp, rfl⟩ := List.mem_map.mp hx
          exact (hv p hp).2.2)
    simpa [smul_eq_mul] using this

/-- C5 amended: for every non-empty FilteredSampleSet of valid pixels, the
average color is the component-wise mean of its pixels with each channel
TRUNCATED (floored) to an integer — not rounded to the nearest — and each
channel lies in [0, 255]. -/
theorem avg_is_floor_mean (l : List Pixel) (hne : l ≠ [])
    (hv : ∀ p ∈ l, p.valid) :
    ((avgPixel l).r = ⌊((l.map Pixel.r).sum : ℚ) / (l.length : ℚ)⌋₊ ∧
      (avgPixel l).r ≤ 255) ∧
    ((avgPixel l).g = ⌊((l.map Pixel.g).sum : ℚ) / (l.length : ℚ)⌋₊ ∧
      (avgPixel l).g ≤ 255) ∧
    ((avgPixel l).b = ⌊((l.map Pixel.b).sum : ℚ) / (l.length : ℚ)⌋₊ ∧
      (avgPixel l).b ≤ 255) := by
  obtain ⟨h1, h2, h3⟩ := avgPixel_valid l hv
  exact ⟨⟨(Nat.floor_div_eq_div _ _).symm, h1⟩,
         ⟨(Nat.floor_div_eq_div _ _).symm, h2⟩,
         ⟨(Nat.floor_div_eq_div _ _).symm, h3⟩⟩

/-- Witness for the amended C5 at a concrete two-pixel list. -/
theorem avg_is_floor_mean_witness :
    (([⟨10, 20, 30⟩, ⟨11, 21, 31⟩] : List Pixel) ≠ []) ∧
    (∀ p ∈ ([⟨10, 20, 30⟩, ⟨11, 21, 31⟩] : List Pixel), p.valid) ∧
    (((avgPixel [⟨10, 20, 30⟩, ⟨11, 21, 31⟩]).r =
        ⌊((([⟨10, 20, 30⟩, ⟨11, 21, 31⟩] : List Pixel).map Pixel.r).sum : ℚ) /
          (([⟨10, 20, 30⟩, ⟨11, 21, 31⟩] : List Pixel).length : ℚ)⌋₊ ∧
      (avgPixel [⟨10, 20, 30⟩, ⟨11, 21, 31⟩]).r ≤ 255) ∧
    ((avgPixel [⟨10, 20, 30⟩, ⟨11, 21, 31⟩]).g =
        ⌊((([⟨10, 20, 30⟩, ⟨11, 21, 31⟩] : List Pixel).map Pixel.g).sum : ℚ) /
          (([⟨10, 20, 30⟩, ⟨11, 21, 31⟩] : List Pixel).length : ℚ)⌋₊ ∧
      (avgPixel [⟨10, 20, 30⟩, ⟨11, 21, 31⟩]).g ≤ 255) ∧
    ((avgPixel [⟨10, 20, 30⟩, ⟨11, 21, 31⟩]).b =
        ⌊((([⟨10, 20, 30⟩, ⟨11, 21, 31⟩] : List Pixel).map Pixel.b).sum : ℚ) /
          (([⟨10, 20, 30⟩, ⟨11, 21, 31⟩] : List Pixel).length : ℚ)⌋₊ ∧
      (avgPixel [⟨10, 20, 30⟩, ⟨11, 21, 31⟩]).b ≤ 255)) :=
  ⟨by decide, by decide, avg_is_floor_mean _ (by decide) (by decide)⟩

/-- C6: the secondary color is derived from the primary's HSV (H, S, V) as
(H, max(0.1, S*0.3), min(1.0, V*1.4 + 0.3)) and the accent color as
((H + 0.08) mod 1.0, min(1.0, S*1.2 + 0.1), min(1.0, V*1.1 + 0.1)), each
converted back to RGB and formatted as hex. -/
theorem secondary_accent_derivation (pixels : List Pixel) :
    let hsv := pixelHSV (vividOf (sampleSet pixels) (avgPixel (sampleSet pixels)))
    let sec := specSecondaryHSV hsv.1 hsv.2.1 hsv.2.2
    let acc := specAccentHSV hsv.1 hsv.2.1 hsv.2.2
    (extractPalette pixels).secondary =
      hexOfTriple (hsv_to_rgb sec.1 sec.2.1 sec.2.2) ∧
    (extractPalette pixels).accent =
      hexOfTriple (hsv_to_rgb acc.1 acc.2.1 acc.2.2) :=
  ⟨rfl, rfl⟩

/-- On a non-negative hue, saturation in [0,1] and non-negative value, every
RGB component emitted by `hsv_to_rgb` lies in `[0, v]`, and one of the three
components is exactly `v`. -/
lemma hsv_to_rgb_bounds (h s v : ℚ) (hh : 0 ≤ h) (hs0 : 0 ≤ s) (hs1 : s ≤ 1)
    (hv : 0 ≤ v) :
    (0 ≤ (hsv_to_rgb h s v).1 ∧ (hsv_to_rgb h s v).1 ≤ v) ∧
    (0 ≤ (hsv_to_rgb h s v).2.1 ∧ (hsv_to_rgb h s v).2.1 ≤ v) ∧
    (0 ≤ (hsv_to_rgb h s v).2.2 ∧ (hsv_to_rgb h s v).2.2 ≤ v) ∧
    ((hsv_to_rgb h s v).1 = v ∨ (hsv_to_rgb h s v).2.1 = v ∨
      (hsv_to_rgb h s v).2.2 = v) := by
  have h6 : (0 : ℚ) ≤ h * 6 := by positivity
  have hpy : pyInt (h * 6) = ⌊h * 6⌋ := pyInt_of_nonneg _ h6
  have hf0 : 0 ≤ h * 6 - (⌊h * 6⌋ : ℚ) := by
    rw [Int.self_sub_floor]; exact Int.fract_nonneg _
  have hf1 : h * 6 - (⌊h * 6⌋ : ℚ) ≤ 1 := by
    rw [Int.self_sub_floor]; exact le_of_lt (Int.fract_lt_one _)
  have hp0 : 0 ≤ v * (1 - s) := mul_nonneg hv (by linarith)
  have hpv : v * (1 - s) ≤ v := mul_le_of_le_one_right hv (by linarith)
  have hsf0 : 0 ≤ s * (h * 6 - (⌊h * 6⌋ : ℚ)) := mul_nonneg hs0 hf0
  have hsf1 : s * (h * 6 - (⌊h * 6⌋ : ℚ)) ≤ 1 := mul_le_one₀ hs1 hf0 hf1
  have hq0 : 0 ≤ v * (1 - s * (h * 6 - (⌊h * 6⌋ : ℚ))) :=
    mul_nonneg hv (by linarith)
  have hqv : v * (1 - s * (h * 6 - (⌊h * 6⌋ : ℚ))) ≤ v :=
    mul_le_of_le_one_right hv (by linarith)
  have hg0 : 0 ≤ 1 - (h * 6 - (⌊h * 6⌋ : ℚ)) := by linarith
  have hg1 : 1 - (h * 6 - (⌊h * 6⌋ : ℚ)) ≤ 1 := by linarith
  have hst0 : 0 ≤ s * (1 - (h * 6 - (⌊h * 6⌋ : ℚ))) := mul_nonneg hs0 hg0
  have hst1 : s * (1 - (h * 6 - (⌊h * 6⌋ : ℚ))) ≤ 1 := mul_le_one₀ hs1 hg0 hg1
  have ht0 : 0 ≤ v * (1 - s * (1 - (h * 6 - (⌊h * 6⌋ : ℚ)))) :=
    mul_nonneg hv (by linarith)
  have htv : v * (1 - s * (1 - (h * 6 - (⌊h * 6⌋ : ℚ)))) ≤ v :=
    mul_le_of_le_one_right hv (by linarith)
  have hmod0 : 0 ≤ ⌊h * 6⌋ % 6 := Int.emod_nonneg _ (by norm_num)
  have hmod6 : ⌊h * 6⌋ % 6 < 6 := Int.emod_lt_of_pos _ (by norm_num)
  simp only [hsv_to_rgb, hpy]
  split_ifs with c0 c1 c2 c3 c4 c5 c6
  · exact ⟨⟨hv, le_refl v⟩, ⟨hv, le_refl v⟩, ⟨hv, le_refl v⟩, Or.inl rfl⟩
  · exact ⟨⟨hv, le_refl v⟩, ⟨ht0, htv⟩, ⟨hp0, hpv⟩, Or.inl rfl⟩
  · exact ⟨⟨hq0, hqv⟩, ⟨hv, le_refl v⟩, ⟨hp0, hpv⟩, Or.inr (Or.inl rfl)⟩
  · exact ⟨⟨hp0, hpv⟩, ⟨hv, le_refl v⟩, ⟨ht0, htv⟩, Or.inr (Or.inl rfl)⟩
  · exact ⟨⟨hp0, hpv⟩, ⟨hq0, hqv⟩, ⟨hv, le_refl v⟩, Or.inr (Or.inr rfl)⟩
  · exact ⟨⟨ht0, htv⟩, ⟨hp0, hpv⟩, ⟨hv, le_refl v⟩, Or.inr (Or.inr rfl)⟩
  · exact ⟨⟨hv, le_refl v⟩, ⟨hp0, hpv⟩, ⟨hq0, hqv⟩, Or.inl rfl⟩
  · exfalso
    omega

/-- `int(x*255)` of a derived channel `x ∈ [0,1]` lies in `[0,255]`. -/
lemma byte_le_255 (x : ℚ) (hx0 : 0 ≤ x) (hx1 : x ≤ 1) :
    (pyInt (x * 255)).toNat ≤ 255 := by
  rw [pyInt_of_nonneg _ (by positivity)]
  have hle : x * 255 ≤ ((255 : ℤ) : ℚ) := by push_cast; nlinarith
  have h2 := Int.floor_le_floor hle
  rw [Int.floor_intCast] at h2
  omega

set_option maxRecDepth 8192 in
/-- `f"{n:02x}"` of a byte is exactly the two lowercase hex digits. -/
lemma format02x_eq : ∀ n, n < 256 →
    format02x n = ⟨[Nat.digitChar (n / 16), Nat.digitChar (n % 16)]⟩ := by
  decide

/-- `hexDigitVal` inverts `Nat.digitChar` on hex digit values. -/
lemma hexDigitVal_digitChar : ∀ d, d < 16 →
    hexDigitVal (Nat.digitChar d) = d := by
  decide

/-- `Nat.digitChar` of a hex digit value is a hex digit character. -/
lemma isHexDigit_digitChar : ∀ d, d < 16 →
    isHexDigit (Nat.digitChar d) = true := by
  decide

/-- Decoding inverts the 3-byte hex formatting. -/
lemma decodeHex6_format (a b c : ℕ) (ha : a < 256) (hb : b < 256)
    (hc : c < 256) :
    decodeHex6 (format02x a ++ format02x b ++ format02x c) = ⟨a, b, c⟩ := by
  rw [format02x_eq a ha, format02x_eq b hb, format02x_eq c hc]
  show (⟨16 * hexDigitVal (Nat.digitChar (a / 16)) +
          hexDigitVal (Nat.digitChar (a % 16)),
        16 * hexDigitVal (Nat.digitChar (b / 16)) +
          hexDigitVal (Nat.digitChar (b % 16)),
        16 * hexDigitVal (Nat.digitChar (c / 16)) +
          hexDigitVal (Nat.digitChar (c % 16))⟩ : Pixel) = ⟨a, b, c⟩
  rw [hexDigitVal_digitChar (a / 16) (by omega),
      hexDigitVal_digitChar (a % 16) (by omega),
      hexDigitVal_digitChar (b / 16) (by omega),
      hexDigitVal_digitChar (b % 16) (by omega),
      hexDigitVal_digitChar (c / 16) (by omega),
      hexDigitVal_digitChar (c % 16) (by omega),
      Nat.div_add_mod a 16, Nat.div_add_mod b 16, Nat.div_add_mod c 16]

/-- Three formatted bytes make a 6-hex-digit string. -/
lemma isHex6_format3 (a b c : ℕ) (ha : a < 256) (hb : b < 256)
    (hc : c < 256) :
    isHex6 (format02x a ++ format02x b ++ format02x c) = true := by
  rw [format02x_eq a ha, format02x_eq b hb, format02x_eq c hc]
  show (decide ((6 : ℕ) = 6) &&
    (isHexDigit (Nat.digitChar (a / 16)) && (isHexDigit (Nat.digitChar (a % 16)) &&
     (isHexDigit (Nat.digitChar (b / 16)) && (isHexDigit (Nat.digitChar (b % 16)) &&
      (isHexDigit (Nat.digitChar (c / 16)) &&
        (isHexDigit (Nat.digitChar (c % 16)) && true))))))) = true
  rw [isHexDigit_digitChar (a / 16) (by omega),
      isHexDigit_digitChar (a % 16) (by omega),
      isHexDigit_digitChar (b / 16) (by omega),
      isHexDigit_digitChar (b % 16) (by omega),
      isHexDigit_digitChar (c / 16) (by omega),
      isHexDigit_digitChar (c % 16) (by omega)]
  rfl

/-- A 3-way maximum of bytes all ≤ 30 with one equal to 30, normalized. -/
lemma max3_div_eq (n1 n2 n3 : ℕ) (h1 : n1 ≤ 30) (h2 : n2 ≤ 30) (h3 : n3 ≤ 30)
    (h30 : n1 = 30 ∨ n2 = 30 ∨ n3 = 30) :
    max ((n1 : ℚ) / 255) (max ((n2 : ℚ) / 255) ((n3 : ℚ) / 255)) = 2 / 17 := by
  have c1 : (n1 : ℚ) ≤ 30 := by exact_mod_cast h1
  have c2 : (n2 : ℚ) ≤ 30 := by exact_mod_cast h2
  have c3 : (n3 : ℚ) ≤ 30 := by exact_mod_cast h3
  apply le_antisymm
  · exact max_le (by linarith) (max_le (by linarith) (by linarith))
  · rcases h30 with rfl | rfl | rfl
    · exact le_trans (by norm_num) (le_max_left _ _)
    · exact le_trans (by norm_num)
        (le_trans (le_max_left _ _) (le_max_right _ _))
    · exact le_trans (by norm_num)
        (le_trans (le_max_right _ _) (le_max_right _ _))

/-- Bytes of a channel in `[0, 0.12]` are at most 30. -/
lemma byte_le_30 (x : ℚ) (hx0 : 0 ≤ x) (hx1 : x ≤ 0.12) :
    (pyInt (x * 255)).toNat ≤ 30 := by
  rw [pyInt_of_nonneg _ (by positivity)]
  have hlt : x * 255 < ((31 : ℤ) : ℚ) := by push_cast; nlinarith
  have := Int.floor_lt.mpr hlt
  omega

/-- C7 amended: the dark color is derived from the primary's HSV as hue
unchanged, saturation min(0.6, S*0.8), value fixed at 0.12 — but because the
channels are quantized by `int(x*255)`, the emitted dark hex string decodes
back to an HSV value of exactly 30/255 = 2/17 ≈ 0.1176 (the quantization of
0.12), not 0.12 itself. -/
theorem dark_derivation_quantized (pixels : List Pixel) :
    (extractPalette pixels).dark =
      hexOfTriple (hsv_to_rgb
        (pixelHSV (vividOf (sampleSet pixels) (avgPixel (sampleSet pixels)))).1
        (min 0.6
          ((pixelHSV (vividOf (sampleSet pixels)
            (avgPixel (sampleSet pixels)))).2.1 * 0.8))
        0.12) ∧
    (pixelHSV (decodeHex6 ((extractPalette pixels).dark))).2.2 = 2 / 17 := by
  refine ⟨rfl, ?_⟩
  set w := vividOf (sampleSet pixels) (avgPixel (sampleSet pixels)) with hw
  have hh0 : 0 ≤ (pixelHSV w).1 := (hue_bounds w).1
  have hs20 : 0 ≤ min (0.6 : ℚ) ((pixelHSV w).2.1 * 0.8) :=
    le_min (by norm_num) (mul_nonneg (sat_nonneg w) (by norm_num))
  have hs21 : min (0.6 : ℚ) ((pixelHSV w).2.1 * 0.8) ≤ 1 :=
    le_trans (min_le_left _ _) (by norm_num)
  have hb := hsv_to_rgb_bounds (pixelHSV w).1
    (min (0.6 : ℚ) ((pixelHSV w).2.1 * 0.8)) 0.12 hh0 hs20 hs21 (by norm_num)
  set d := hsv_to_rgb (pixelHSV w).1
    (min (0.6 : ℚ) ((pixelHSV w).2.1 * 0.8)) 0.12 with hd
  have b012 : (pyInt ((0.12 : ℚ) * 255)).toNat = 30 := by
    with_unfolding_all decide
  have hn1 : (pyInt (d.1 * 255)).toNat ≤ 30 := byte_le_30 _ hb.1.1 hb.1.2
  have hn2 : (pyInt (d.2.1 * 255)).toNat ≤ 30 := byte_le_30 _ hb.2.1.1 hb.2.1.2
  have hn3 : (pyInt (d.2.2 * 255)).toNat ≤ 30 := byte_le_30 _ hb.2.2.1.1 hb.2.2.1.2
  have h30 : (pyInt (d.1 * 255)).toNat = 30 ∨ (pyInt (d.2.1 * 255)).toNat = 30 ∨
      (pyInt (d.2.2 * 255)).toNat = 30 := by
    rcases hb.2.2.2 with he | he | he
    · exact Or.inl (by rw [he]; exact b012)
    · exact Or.inr (Or.inl (by rw [he]; exact b012))
    · exact Or.inr (Or.inr (by rw [he]; exact b012))
  have hdark : (extractPalette pixels).dark =
      format02x ((pyInt (d.1 * 255)).toNat) ++
      format02x ((pyInt (d.2.1 * 255)).toNat) ++
      format02x ((pyInt (d.2.2 * 255)).toNat) := rfl
  rw [hdark, decodeHex6_format _ _ _ (by omega) (by omega) (by omega)]
  show val (⟨(pyInt (d.1 * 255)).toNat, (pyInt (d.2.1 * 255)).toNat,
    (pyInt (d.2.2 * 255)).toNat⟩ : Pixel) = 2 / 17
  rw [val_eq_max]
  exact max3_div_eq _ _ _ hn1 hn2 hn3 h30

/-- Value of any pixel is non-negative. -/
lemma val_nonneg (p : Pixel) : 0 ≤ val p := by
  rw [val_eq_max]
  exact le_trans (by positivity) (le_max_left _ _)

/-- Value of a valid pixel is at most 1. -/
lemma val_le_one (p : Pixel) (h : p.valid) : val p ≤ 1 := by
  rw [val_eq_max]
  refine max_le ?_ (max_le ?_ ?_) <;> rw [div_le_one (by norm_num)]
  · exact_mod_cast le_trans h.1 (by norm_num)
  · exact_mod_cast le_trans h.2.1 (by norm_num)
  · exact_mod_cast le_trans h.2.2 (by norm_num)

/-- The vivid pixel is the initial candidate or an element of the list. -/
lemma vividOf_mem_or_eq (l : List Pixel) (a : Pixel) :
    vividOf l a = a ∨ vividOf l a ∈ l := by
  obtain ⟨-, -, h3⟩ := vividFold_invariant l 0 a
  rcases h3 with ⟨-, hsnd⟩ | ⟨-, -, -, l1, l2, heq, -⟩
  · exact Or.inl hsnd
  · right
    have hmem : (l.foldl vividStep (0, a)).2 ∈
        l1 ++ (l.foldl vividStep (0, a)).2 :: l2 :=
      List.mem_append.mpr (Or.inr (List.mem_cons_self _ _))
    rw [← heq] at hmem
    exact hmem

/-- The vivid pixel of a valid image is valid. -/
lemma vivid_valid (pixels : List Pixel) (hv : ∀ p ∈ pixels, p.valid) :
    (vividOf (sampleSet pixels) (avgPixel (sampleSet pixels))).valid := by
  rcases vividOf_mem_or_eq (sampleSet pixels) (avgPixel (sampleSet pixels))
    with h | h
  · rw [h]
    exact avgPixel_valid _ fun p hp => hv p (sampleSet_subset _ p hp)
  · exact hv _ (sampleSet_subset _ _ h)

/-- The primary hex of a valid pixel is a 6-hex-digit string. -/
lemma isHex6_hex6 (p : Pixel) (h : p.valid) : isHex6 (hex6 p) = true :=
  isHex6_format3 p.r p.g p.b (by have := h.1; omega)
    (by have := h.2.1; omega) (by have := h.2.2; omega)

/-- The hex of a derived triple with components in `[0,1]` is a 6-hex-digit
string. -/
lemma isHex6_hexOfTriple (t : ℚ × ℚ × ℚ)
    (h1 : 0 ≤ t.1) (h1' : t.1 ≤ 1) (h2 : 0 ≤ t.2.1) (h2' : t.2.1 ≤ 1)
    (h3 : 0 ≤ t.2.2) (h3' : t.2.2 ≤ 1) :
    isHex6 (hexOfTriple t) = true := by
  have b1 := byte_le_255 t.1 h1 h1'
  have b2 := byte_le_255 t.2.1 h2 h2'
  have b3 := byte_le_255 t.2.2 h3 h3'
  exact isHex6_format3 _ _ _ (by omega) (by omega) (by omega)

/-- C9: every one of the 8 string values of the returned palette matches
`^[0-9a-fA-F]{6}$` — on the fallback path they are the default constants,
and on the success path each derived channel `int(x*255)` with `x ∈ [0,1]`
lies in `[0,255]` and formats to exactly two hex digits. -/
theorem palette_hex_format (img : Option (List Pixel))
    (hv : ∀ l, img = some l → ∀ p ∈ l, p.valid) :
    isHex6 (extract_colors_from_logo img).primary = true ∧
    isHex6 (extract_colors_from_logo img).secondary = true ∧
    isHex6 (extract_colors_from_logo img).accent = true ∧
    isHex6 (extract_colors_from_logo img).dark = true ∧
    isHex6 (extract_colors_from_logo img).light = true ∧
    isHex6 (extract_colors_from_logo img).textDark = true ∧
    isHex6 (extract_colors_from_logo img).textLight = true ∧
    isHex6 (extract_colors_from_logo img).textMuted = true := by
  match img with
  | none =>
      exact ⟨by decide, by decide, by decide, by decide, by decide, by decide,
        by decide, by decide⟩
  | some pixels =>
      by_cases hne : pixels = []
      · subst hne
        exact ⟨by decide, by decide, by decide, by decide, by decide,
          by decide, by decide, by decide⟩
      · have hval : ∀ p ∈ pixels, p.valid := hv pixels rfl
        have hex : extract_colors_from_logo (some pixels) =
            extractPalette pixels := by
          simp [extract_colors_from_logo, hne]
        rw [hex]
        set w := vividOf (sampleSet pixels) (avgPixel (sampleSet pixels))
          with hw
        have hwv : w.valid := vivid_valid pixels hval
        have hh0 : 0 ≤ (pixelHSV w).1 := (hue_bounds w).1
        have hs0 : 0 ≤ (pixelHSV w).2.1 := sat_nonneg w
        have hs1 : (pixelHSV w).2.1 ≤ 1 := sat_le_one w
        have hv0 : 0 ≤ (pixelHSV w).2.2 := val_nonneg w
        have hv1 : (pixelHSV w).2.2 ≤ 1 := val_le_one w hwv
        -- secondary parameters
        have hs2a : 0 ≤ max (0.1 : ℚ) ((pixelHSV w).2.1 * 0.3) :=
          le_trans (by norm_num) (le_max_left _ _)
        have hs2b : max (0.1 : ℚ) ((pixelHSV w).2.1 * 0.3) ≤ 1 :=
          max_le (by norm_num) (by linarith)
        have hv2a : 0 ≤ min (1.0 : ℚ) ((pixelHSV w).2.2 * 1.4 + 0.3) :=
          le_min (by norm_num) (by linarith)
        have hv2b : min (1.0 : ℚ) ((pixelHSV w).2.2 * 1.4 + 0.3) ≤ 1 :=
          le_trans (min_le_left _ _) (by norm_num)
        have hbsec := hsv_to_rgb_bounds (pixelHSV w).1
          (max (0.1 : ℚ) ((pixelHSV w).2.1 * 0.3))
          (min (1.0 : ℚ) ((pixelHSV w).2.2 * 1.4 + 0.3)) hh0 hs2a hs2b hv2a
        -- accent parameters
        have hh3 : 0 ≤ pyMod1 ((pixelHSV w).1 + 0.08) := (pyMod1_bounds _).1
        have hs3a : 0 ≤ min (1.0 : ℚ) ((pixelHSV w).2.1 * 1.2 + 0.1) :=
          le_min (by norm_num) (by linarith)
        have hs3b : min (1.0 : ℚ) ((pixelHSV w).2.1 * 1.2 + 0.1) ≤ 1 :=
          le_trans (min_le_left _ _) (by norm_num)
        have hv3a : 0 ≤ min (1.0 : ℚ) ((pixelHSV w).2.2 * 1.1 + 0.1) :=
          le_min (by norm_num) (by linarith)
        have hv3b : min (1.0 : ℚ) ((pixelHSV w).2.2 * 1.1 + 0.1) ≤ 1 :=
          le_trans (min_le_left _ _) (by norm_num)
        have hbacc := hsv_to_rgb_bounds (pyMod1 ((pixelHSV w).1 + 0.08))
          (min (1.0 : ℚ) ((pixelHSV w).2.1 * 1.2 + 0.1))
          (min (1.0 : ℚ) ((pixelHSV w).2.2 * 1.1 + 0.1)) hh3 hs3a hs3b hv3a
        -- dark parameters
        have hs4a : 0 ≤ min (0.6 : ℚ) ((pixelHSV w).2.1 * 0.8) :=
          le_min (by norm_num) (mul_nonneg hs0 (by norm_num))
        have hs4b : min (0.6 : ℚ) ((pixelHSV w).2.1 * 0.8) ≤ 1 :=
          le_trans (min_le_left _ _) (by norm_num)
        have hbdark := hsv_to_rgb_bounds (pixelHSV w).1
          (min (0.6 : ℚ) ((pixelHSV w).2.1 * 0.8)) 0.12 hh0 hs4a hs4b
          (by norm_num)
        refine ⟨?_, ?_, ?_, ?_, by exact (by decide : isHex6 "F8F9FA" = true),
          by exact (by decide : isHex6 "1A1A2E" = true),
          by exact (by decide : isHex6 "FFFFFF" = true),
          by exact (by decide : isHex6 "6B7280" = true)⟩
        · exact isHex6_hex6 w hwv
        · exact isHex6_hexOfTriple _
            hbsec.1.1 (le_trans hbsec.1.2 hv2b)
            hbsec.2.1.1 (le_trans hbsec.2.1.2 hv2b)
            hbsec.2.2.1.1 (le_trans hbsec.2.2.1.2 hv2b)
        · exact isHex6_hexOfTriple _
            hbacc.1.1 (le_trans hbacc.1.2 hv3b)
            hbacc.2.1.1 (le_trans hbacc.2.1.2 hv3b)
            hbacc.2.2.1.1 (le_trans hbacc.2.2.1.2 hv3b)
        · exact isHex6_hexOfTriple _
            hbdark.1.1 (le_trans hbdark.1.2 (by norm_num))
            hbdark.2.1.1 (le_trans hbdark.2.1.2 (by norm_num))
            hbdark.2.2.1.1 (le_trans hbdark.2.2.1.2 (by norm_num))

/-- Witness for C9 at a concrete one-pixel image. -/
theorem palette_hex_format_witness :
    (∀ l, some [(⟨200, 30, 30⟩ : Pixel)] = some l → ∀ p ∈ l, p.valid) ∧
    (isHex6 (extract_colors_from_logo (some [⟨200, 30, 30⟩])).primary = true ∧
     isHex6 (extract_colors_from_logo (some [⟨200, 30, 30⟩])).secondary = true ∧
     isHex6 (extract_colors_from_logo (some [⟨200, 30, 30⟩])).accent = true ∧
     isHex6 (extract_colors_from_logo (some [⟨200, 30, 30⟩])).dark = true ∧
     isHex6 (extract_colors_from_logo (some [⟨200, 30, 30⟩])).light = true ∧
     isHex6 (extract_colors_from_logo (some [⟨200, 30, 30⟩])).textDark = true ∧
     isHex6 (extract_colors_from_logo (some [⟨200, 30, 30⟩])).textLight = true ∧
     isHex6 (extract_colors_from_logo (some [⟨200, 30, 30⟩])).textMuted = true) :=
  ⟨fun l hl => by cases hl; decide,
   palette_hex_format (some [⟨200, 30, 30⟩]) (fun l hl => by cases hl; decide)⟩

end ProposalSnap
